import Mathlib

/-!
Shallow embedding of the model-loading and draw pipeline of the `car`
repository (src/include/model.h, src/include/mesh.h and the procedural
cubemap generation in src/examples/modelLoading.cpp).

Conventions of the embedding:
* C++ `float` scalars are modelled as exact rationals (`ℚ`) in the
  computable pipeline; the per-vertex normalisation path of
  `Model::processMesh`, which divides by a Euclidean norm (a square
  root), is modelled separately over the reals (`ℝ`) in the
  `RealGeom` section below.
* OpenGL side effects are modelled as explicit state (`GLState`) and,
  for `Mesh::Draw`, as an explicit event trace (`GLEvent`).
* `stbi_load` success/failure is a parameter `decodes : String → Bool`
  of the pipeline; `glGenTextures` is a counter handing out fresh
  texture names starting at 1.
* `std::sort` (used by `Model::Draw` for the transparent pass) gives no
  guarantee on the relative order of elements that compare equal, so it
  is embedded by its contract `stdSortSpec`: the output is a permutation
  of the input that is sorted with respect to the comparator.
-/

/-- Rational 3-component vector (glm::vec3 in the computable pipeline). -/
structure Vec3 where
  x : ℚ
  y : ℚ
  z : ℚ
deriving DecidableEq

/-- Rational 4-component vector (glm::vec4). -/
structure Vec4 where
  x : ℚ
  y : ℚ
  z : ℚ
  w : ℚ
deriving DecidableEq

def Vec3.zero : Vec3 := ⟨0, 0, 0⟩

def Vec3.add (a b : Vec3) : Vec3 := ⟨a.x + b.x, a.y + b.y, a.z + b.z⟩

def Vec3.sub (a b : Vec3) : Vec3 := ⟨a.x - b.x, a.y - b.y, a.z - b.z⟩

def Vec3.smul (c : ℚ) (a : Vec3) : Vec3 := ⟨c * a.x, c * a.y, c * a.z⟩

def Vec3.dot (a b : Vec3) : ℚ := a.x * b.x + a.y * b.y + a.z * b.z

/-- Row-major 4×4 rational matrix (glm::mat4; the row/column storage of
glm is irrelevant to the embedding, only the linear map matters). -/
structure Mat4 where
  a00 : ℚ
  a01 : ℚ
  a02 : ℚ
  a03 : ℚ
  a10 : ℚ
  a11 : ℚ
  a12 : ℚ
  a13 : ℚ
  a20 : ℚ
  a21 : ℚ
  a22 : ℚ
  a23 : ℚ
  a30 : ℚ
  a31 : ℚ
  a32 : ℚ
  a33 : ℚ
deriving DecidableEq

/-- The identity matrix, glm::mat4(1.0f). -/
def Mat4.id : Mat4 := ⟨1,0,0,0, 0,1,0,0, 0,0,1,0, 0,0,0,1⟩

/-- Matrix-vector application, glm::mat4 * glm::vec4. -/
def Mat4.app (m : Mat4) (v : Vec4) : Vec4 :=
  ⟨m.a00 * v.x + m.a01 * v.y + m.a02 * v.z + m.a03 * v.w,
   m.a10 * v.x + m.a11 * v.y + m.a12 * v.z + m.a13 * v.w,
   m.a20 * v.x + m.a21 * v.y + m.a22 * v.z + m.a23 * v.w,
   m.a30 * v.x + m.a31 * v.y + m.a32 * v.z + m.a33 * v.w⟩

/-- Matrix product, used by `processNode` to accumulate node transforms. -/
def Mat4.mul (m n : Mat4) : Mat4 :=
  ⟨m.a00 * n.a00 + m.a01 * n.a10 + m.a02 * n.a20 + m.a03 * n.a30,
   m.a00 * n.a01 + m.a01 * n.a11 + m.a02 * n.a21 + m.a03 * n.a31,
   m.a00 * n.a02 + m.a01 * n.a12 + m.a02 * n.a22 + m.a03 * n.a32,
   m.a00 * n.a03 + m.a01 * n.a13 + m.a02 * n.a23 + m.a03 * n.a33,
   m.a10 * n.a00 + m.a11 * n.a10 + m.a12 * n.a20 + m.a13 * n.a30,
   m.a10 * n.a01 + m.a11 * n.a11 + m.a12 * n.a21 + m.a13 * n.a31,
   m.a10 * n.a02 + m.a11 * n.a12 + m.a12 * n.a22 + m.a13 * n.a32,
   m.a10 * n.a03 + m.a11 * n.a13 + m.a12 * n.a23 + m.a13 * n.a33,
   m.a20 * n.a00 + m.a21 * n.a10 + m.a22 * n.a20 + m.a23 * n.a30,
   m.a20 * n.a01 + m.a21 * n.a11 + m.a22 * n.a21 + m.a23 * n.a31,
   m.a20 * n.a02 + m.a21 * n.a12 + m.a22 * n.a22 + m.a23 * n.a32,
   m.a20 * n.a03 + m.a21 * n.a13 + m.a22 * n.a23 + m.a23 * n.a33,
   m.a30 * n.a00 + m.a31 * n.a10 + m.a32 * n.a20 + m.a33 * n.a30,
   m.a30 * n.a01 + m.a31 * n.a11 + m.a32 * n.a21 + m.a33 * n.a31,
   m.a30 * n.a02 + m.a31 * n.a12 + m.a32 * n.a22 + m.a33 * n.a32,
   m.a30 * n.a03 + m.a31 * n.a13 + m.a32 * n.a23 + m.a33 * n.a33⟩

/-- Apply a 4×4 transform to a point (w = 1) and keep the xyz part,
as `glm::vec3(transformedPos)` does in `processMesh`. -/
def Mat4.appPoint (m : Mat4) (p : Vec3) : Vec3 :=
  let t := m.app ⟨p.x, p.y, p.z, 1⟩
  ⟨t.x, t.y, t.z⟩

/-- The `Texture` struct of mesh.h: GPU handle, sampler-kind string,
source path and the UV transform parsed from KHR_texture_transform. -/
structure Texture where
  id : Nat
  type : String
  path : String
  uvOffset : ℚ × ℚ := (0, 0)
  uvScale : ℚ × ℚ := (1, 1)
  uvRotation : ℚ := 0
deriving DecidableEq

/-- Explicit model of the GL texture-object state touched by
`TextureFromFile`: the next name `glGenTextures` will hand out
(names start at 1), the set of names that received image data via
`glTexImage2D`, and the log of decode failures reported to stdout. -/
structure GLState where
  nextTex : Nat
  uploaded : List Nat
  decodeFailures : List String
deriving DecidableEq

def GLState.init : GLState := ⟨1, [], []⟩

/-- Embedding of `TextureFromFile` (model.h).  `decodes` models
`stbi_load` succeeding on the composed filename.  The C++ function
generates a texture name first and returns that name on both the
success and the failure path; on failure it only prints
"Texture failed to load at path" and uploads no image data. -/
def TextureFromFile (decodes : String → Bool) (path : String)
    (directory : String) (_gamma : Bool) (st : GLState) : Nat × GLState :=
  let filename := directory ++ "/" ++ path
  let textureID := st.nextTex
  let st1 : GLState := { st with nextTex := st.nextTex + 1 }
  if decodes filename then
    (textureID, { st1 with uploaded := st1.uploaded ++ [textureID] })
  else
    (textureID, { st1 with decodeFailures := st1.decodeFailures ++ [path] })

/-- UV transform parsed from KHR_texture_transform (model.h, struct
UVTransform); defaults are the identity transform. -/
structure UVTransform where
  offset : ℚ × ℚ := (0, 0)
  scale : ℚ × ℚ := (1, 1)
  rotation : ℚ := 0
deriving DecidableEq

/-- Per-material image references parsed from the glTF JSON (model.h,
struct MatRefs); -1 means "no reference". -/
structure MatRefs where
  baseColor : Int := -1
  normal : Int := -1
  metallicRoughness : Int := -1
deriving DecidableEq

/-- A KHR_texture_transform block as found in the JSON: each field is
present or absent. -/
structure GltfUVT where
  offset : Option (ℚ × ℚ) := none
  scale : Option (ℚ × ℚ) := none
  rotation : Option ℚ := none

/-- A texture reference inside a glTF material: the `index` field and an
optional KHR_texture_transform extension block. -/
structure GltfTexRef where
  index : Option Int := none
  khr : Option GltfUVT := none

/-- One entry of the glTF "materials" array, reduced to the fields the
loader reads.  An `Option` is `none` when the JSON key is absent (or,
for `baseColorFactor`, not an array of at least four numbers). -/
structure GltfMaterial where
  baseColorFactor : Option Vec4 := none
  metallicFactor : Option ℚ := none
  roughnessFactor : Option ℚ := none
  baseColorTexture : Option GltfTexRef := none
  metallicRoughnessTexture : Option GltfTexRef := none
  normalTexture : Option GltfTexRef := none

/-- One entry of the glTF "images" array: an optional "uri" key. -/
structure GltfImage where
  uri : Option String := none

/-- The glTF JSON document, reduced to the parts `loadModel` reads.
`loadModel` receives an `Option GltfDoc`: `none` models an unreadable
file or a JSON parse error (swallowed by the catch-all in model.h). -/
structure GltfDoc where
  images : List GltfImage := []
  materials : List GltfMaterial := []

/-- The material tables `loadModel` builds from the glTF JSON. -/
structure MatTables where
  imageUris : List String := []
  imageTransforms : List UVTransform := []
  materialImageRefs : List MatRefs := []
  materialBaseColorFactors : List Vec4 := []
  materialMetallicFactors : List ℚ := []
  materialRoughnessFactors : List ℚ := []

/-- Build a `UVTransform` from a KHR_texture_transform block, exactly as
the loader does: start from the identity and overwrite each component
that is present. -/
def mkUVT (t : GltfUVT) : UVTransform :=
  { offset := t.offset.getD (0, 0)
    scale := t.scale.getD (1, 1)
    rotation := t.rotation.getD 0 }

/-- Record a KHR transform for the image a texture reference points at,
guarded by the same bounds check as the C++
(`refs >= 0 && refs < imageTransforms.size()`). -/
def applyKhr (trans : List UVTransform) (ix : Int) (khr : Option GltfUVT) :
    List UVTransform :=
  match khr with
  | none => trans
  | some t =>
    if 0 ≤ ix ∧ ix.toNat < trans.length then
      trans.set ix.toNat (mkUVT t)
    else trans

/-- Write through to index `i` of a list, leaving the list unchanged
when the index is out of range (used for `materialImageRefs[mi].x = v`). -/
def listModify {α : Type} (l : List α) (i : Nat) (f : α → α) : List α :=
  match l[i]? with
  | some a => l.set i (f a)
  | none => l

/-- Process one material of the glTF "materials" array, updating the
tables in the same order as the C++ loop body: baseColorFactor,
metallic/roughness factors, baseColorTexture (with KHR transform),
metallicRoughnessTexture, normalTexture (with KHR transform). -/
def processGltfMaterial (tb : MatTables) (mi : Nat) (mat : GltfMaterial) :
    MatTables :=
  let tb :=
    match mat.baseColorFactor with
    | some f => { tb with materialBaseColorFactors :=
        tb.materialBaseColorFactors.set mi f }
    | none => tb
  let tb :=
    match mat.metallicFactor with
    | some f => { tb with materialMetallicFactors :=
        tb.materialMetallicFactors.set mi f }
    | none => tb
  let tb :=
    match mat.roughnessFactor with
    | some f => { tb with materialRoughnessFactors :=
        tb.materialRoughnessFactors.set mi f }
    | none => tb
  let tb :=
    match mat.baseColorTexture with
    | some bct =>
      match bct.index with
      | some ix =>
        { tb with
          materialImageRefs :=
            (listModify tb.materialImageRefs mi fun r => { r with baseColor := ix }),
          imageTransforms := applyKhr tb.imageTransforms ix bct.khr }
      | none => tb
    | none => tb
  let tb :=
    match mat.metallicRoughnessTexture with
    | some mrt =>
      match mrt.index with
      | some ix =>
        { tb with
          materialImageRefs :=
            (listModify tb.materialImageRefs mi fun r => { r with metallicRoughness := ix }) }
      | none => tb
    | none => tb
  match mat.normalTexture with
  | some nt =>
    match nt.index with
    | some ix =>
      { tb with
        materialImageRefs :=
          (listModify tb.materialImageRefs mi fun r => { r with normal := ix }),
        imageTransforms := applyKhr tb.imageTransforms ix nt.khr }
    | none => tb
  | none => tb

/-- Build the material tables from a parsed glTF document (model.h lines
106-202).  A `none` document models the catch-all for an unreadable or
malformed JSON: the tables stay empty and the load proceeds on Assimp
data alone. -/
def buildTables (g : Option GltfDoc) : MatTables :=
  match g with
  | none => {}
  | some doc =>
    let tb0 : MatTables :=
      { imageUris := doc.images.map (fun i => i.uri.getD "")
        imageTransforms := doc.images.map (fun _ => {})
        materialImageRefs := List.replicate doc.materials.length {}
        materialBaseColorFactors :=
          List.replicate doc.materials.length ⟨1, 1, 1, 1⟩
        materialMetallicFactors := List.replicate doc.materials.length 1
        materialRoughnessFactors := List.replicate doc.materials.length 1 }
    (doc.materials.enum).foldl
      (fun tb p => processGltfMaterial tb p.1 p.2) tb0

/-- The Assimp texture kinds queried by `processMesh`. -/
inductive AiTextureType where
  | DIFFUSE
  | SPECULAR
  | HEIGHT
  | AMBIENT
deriving DecidableEq

/-- An Assimp material, reduced to the per-kind texture path lists that
`GetTextureCount`/`GetTexture` expose. -/
structure AiMaterial where
  diffuse : List String := []
  specular : List String := []
  height : List String := []
  ambient : List String := []
deriving DecidableEq

/-- `mat->GetTexture(type, i)` for `i` below `mat->GetTextureCount(type)`. -/
def AiMaterial.texturesOf (mat : AiMaterial) (ty : AiTextureType) : List String :=
  match ty with
  | .DIFFUSE => mat.diffuse
  | .SPECULAR => mat.specular
  | .HEIGHT => mat.height
  | .AMBIENT => mat.ambient

/-- An Assimp mesh, reduced to the data the computable pipeline reads:
vertex positions, faces (index lists) and the material index.  The
per-vertex normal/tangent/bitangent/UV path of `processMesh`, which
normalises by a Euclidean (square-root) norm, is embedded separately
over `ℝ` as `procVertex` below. -/
structure AiMesh where
  vertices : List Vec3 := []
  faces : List (List Nat) := []
  materialIndex : Nat := 0
deriving DecidableEq

/-- An Assimp node: local transform, mesh indices, children. -/
inductive AiNode where
  | mk (transform : Mat4) (meshIdxs : List Nat) (children : List AiNode)

/-- The Assimp scene as `ReadFile` returns it.  `loadModel` receives an
`Option AiScene`: `none` models `ReadFile` returning null. -/
structure AiScene where
  flagsIncomplete : Bool := false
  rootNode : Option AiNode := none
  meshes : List AiMesh := []
  materials : List AiMaterial := []

/-- The draw-ready mesh record built by `processMesh` (class Mesh of
mesh.h, minus the GPU buffer handles). -/
structure PMesh where
  vertices : List Vec3
  indices : List Nat
  textures : List Texture
  baseColorFactor : Vec4
  transparent : Bool
  metallicFactor : ℚ
  roughnessFactor : ℚ
  centroid : Vec3
deriving DecidableEq

/-- The mutable Model state threaded through the import:
`textures_loaded` (the texture registry), `meshes`, and the GL state. -/
structure MState where
  textures_loaded : List Texture := []
  meshes : List PMesh := []
  gl : GLState := GLState.init
deriving DecidableEq

/-- Read-only context of the import: the model directory, the image
decoder and the tables parsed from the glTF JSON. -/
structure Ctx where
  directory : String
  decodes : String → Bool
  tables : MatTables

/-- Lower-case a string character-wise (the std::tolower loop in the
transparency heuristic). -/
def lowerStr (s : String) : String := String.mk (s.data.map Char.toLower)

/-- Substring test, `std::string::find(needle) != npos`. -/
def strHasSub (hay needle : String) : Bool :=
  hay.data.tails.any (fun t => needle.data.isPrefixOf t)

/-- The transparency filename heuristic of `processMesh`: the
lower-cased path contains "glass", "alpha" or "transp". -/
def kwTransparent (p : String) : Bool :=
  let q := lowerStr p
  strHasSub q "glass" || strHasSub q "alpha" || strHasSub q "transp"

/-- One iteration of the `Model::loadMaterialTextures` loop: reuse the
registry entry when the path was already loaded, else load the file and
append the new texture to both the local list and the registry
`textures_loaded`. -/
def lmtStep (ctx : Ctx) (typeName : String) (acc : List Texture × MState)
    (p : String) : List Texture × MState :=
  let txs := acc.1
  let st := acc.2
  match st.textures_loaded.find? (fun t => t.path == p) with
  | some t => (txs ++ [t], st)
  | none =>
    let isGamma := typeName == "texture_diffuse"
    let r := TextureFromFile ctx.decodes p ctx.directory isGamma st.gl
    let tex : Texture := { id := r.1, type := typeName, path := p }
    (txs ++ [tex],
     { st with gl := r.2,
               textures_loaded := st.textures_loaded ++ [tex] })

/-- Embedding of `Model::loadMaterialTextures`: walk the material's
texture paths of one Assimp kind with `lmtStep`. -/
def loadMaterialTextures (ctx : Ctx) (st : MState) (mat : AiMaterial)
    (ty : AiTextureType) (typeName : String) : List Texture × MState :=
  (mat.texturesOf ty).foldl (lmtStep ctx typeName) ([], st)

/-- One of the three glTF-JSON texture blocks of `processMesh`
(baseColor / normal / metallicRoughness): when the image reference is in
range, the URI is not already among this mesh's textures, and the URI is
non-empty, load the file and append a texture carrying the image's UV
transform — to the mesh's local list only, not to `textures_loaded`. -/
def addJsonTexture (ctx : Ctx) (txs : List Texture) (gl : GLState)
    (ref : Int) (typeName : String) (isGamma : Bool) :
    List Texture × GLState :=
  if 0 ≤ ref ∧ ref < (ctx.tables.imageUris.length : Int) then
    let uri := ctx.tables.imageUris.getD ref.toNat ""
    let found := txs.any (fun t => t.path == uri)
    if found = false ∧ uri ≠ "" then
      let r := TextureFromFile ctx.decodes uri ctx.directory isGamma gl
      -- the bounds-checked copy of imageTransforms[ref]; out of range
      -- leaves the Texture's identity UV transform, as in the C++
      let tr := ctx.tables.imageTransforms.getD ref.toNat {}
      let tex : Texture := { id := r.1, type := typeName, path := uri,
                             uvOffset := tr.offset, uvScale := tr.scale,
                             uvRotation := tr.rotation }
      (txs ++ [tex], r.2)
    else (txs, gl)
  else (txs, gl)

/-- Embedding of `Model::processMesh` (minus the real-valued per-vertex
normalisation, see `procVertex`): bake the node transform into the
positions, gather indices, resolve the Assimp textures and the
glTF-JSON textures, derive the transparency flag, the centroid and the
material factors. -/
def processMesh (materials : List AiMaterial) (ctx : Ctx) (st : MState)
    (mesh : AiMesh) (nodeTransform : Mat4) : PMesh × MState :=
  let vertices := mesh.vertices.map (fun p => nodeTransform.appPoint p)
  let indices := mesh.faces.foldl (fun acc f => acc ++ f) []
  let material := materials.getD mesh.materialIndex {}
  let dm := loadMaterialTextures ctx st material .DIFFUSE "texture_diffuse"
  let st := dm.2
  let sm := loadMaterialTextures ctx st material .SPECULAR "texture_specular"
  let st := sm.2
  let nm := loadMaterialTextures ctx st material .HEIGHT "texture_normal"
  let st := nm.2
  let hm := loadMaterialTextures ctx st material .AMBIENT "texture_height"
  let st := hm.2
  let textures := dm.1 ++ sm.1 ++ nm.1 ++ hm.1
  let bcFactor :=
    if mesh.materialIndex < ctx.tables.materialBaseColorFactors.length then
      ctx.tables.materialBaseColorFactors.getD mesh.materialIndex ⟨1, 1, 1, 1⟩
    else ⟨1, 1, 1, 1⟩
  let tg :=
    if mesh.materialIndex < ctx.tables.materialImageRefs.length then
      let refs := ctx.tables.materialImageRefs.getD mesh.materialIndex {}
      let t1 := addJsonTexture ctx textures st.gl refs.baseColor
        "texture_diffuse" true
      let t2 := addJsonTexture ctx t1.1 t1.2 refs.normal
        "texture_normal" false
      addJsonTexture ctx t2.1 t2.2 refs.metallicRoughness
        "texture_metallicRoughness" false
    else (textures, st.gl)
  let textures := tg.1
  let st := { st with gl := tg.2 }
  let isTransparent :=
    (if mesh.materialIndex < ctx.tables.materialBaseColorFactors.length ∧
        (ctx.tables.materialBaseColorFactors.getD mesh.materialIndex
          ⟨1, 1, 1, 1⟩).w < 999/1000
     then true else false)
    || textures.any (fun t => kwTransparent t.path)
  let csum := vertices.foldl Vec3.add Vec3.zero
  let centroid :=
    if vertices.isEmpty then csum
    else Vec3.smul (1 / (vertices.length : ℚ)) csum
  let matMetal :=
    if mesh.materialIndex < ctx.tables.materialMetallicFactors.length then
      ctx.tables.materialMetallicFactors.getD mesh.materialIndex 1
    else 1
  let matRough :=
    if mesh.materialIndex < ctx.tables.materialRoughnessFactors.length then
      ctx.tables.materialRoughnessFactors.getD mesh.materialIndex 1
    else 1
  ({ vertices := vertices, indices := indices, textures := textures,
     baseColorFactor := bcFactor, transparent := isTransparent,
     metallicFactor := matMetal, roughnessFactor := matRough,
     centroid := centroid }, st)

mutual

/-- Embedding of `Model::processNode`: accumulate the node transform,
process this node's meshes in order (appending each to the model's mesh
list), then recurse into the children in order. -/
def processNode (scene : AiScene) (ctx : Ctx) (node : AiNode)
    (parentTransform : Mat4) (st : MState) : MState :=
  match node with
  | .mk tLocal meshIdxs children =>
    let nodeTransform := parentTransform.mul tLocal
    let st1 := meshIdxs.foldl
      (fun s idx =>
        match scene.meshes[idx]? with
        | some m =>
          let r := processMesh scene.materials ctx s m nodeTransform
          { r.2 with meshes := r.2.meshes ++ [r.1] }
        | none => s)
      st
    processNodeChildren scene ctx children nodeTransform st1

/-- The child loop of `processNode`. -/
def processNodeChildren (scene : AiScene) (ctx : Ctx) (l : List AiNode)
    (t : Mat4) (st : MState) : MState :=
  match l with
  | [] => st
  | c :: cs => processNodeChildren scene ctx cs t (processNode scene ctx c t st)

end

/-- `path.substr(0, path.find_last_of('/'))`: everything before the last
slash, or the whole string when there is none (npos). -/
def dirOf (path : String) : String :=
  let cs := path.data
  match cs.reverse.findIdx? (fun c => c == '/') with
  | some j => String.mk (cs.take (cs.length - 1 - j))
  | none => path

/-- What the caller of `Model(path)` observes after the import: whether
the ASSIMP error branch printed an import error, and the Model's data
members. -/
structure LoadResult where
  errorReported : Bool
  directory : String
  textures_loaded : List Texture
  meshes : List PMesh
  gl : GLState

/-- Embedding of `Model::loadModel`: on a null scene, an incomplete
scene or a missing root node, report the ASSIMP error and return with
no meshes and no loaded textures; otherwise derive the directory, parse
the glTF JSON tables and walk the node hierarchy from the root with the
identity parent transform. -/
def loadModel (readResult : Option AiScene) (gltf : Option GltfDoc)
    (decodes : String → Bool) (path : String) : LoadResult :=
  let failed : LoadResult :=
    { errorReported := true, directory := "", textures_loaded := [],
      meshes := [], gl := GLState.init }
  match readResult with
  | none => failed
  | some scene =>
    if scene.flagsIncomplete then failed
    else
      match scene.rootNode with
      | none => failed
      | some root =>
        let directory := dirOf path
        let tables := buildTables gltf
        let ctx : Ctx := { directory := directory, decodes := decodes,
                           tables := tables }
        let st := processNode scene ctx root Mat4.id {}
        { errorReported := false, directory := directory,
          textures_loaded := st.textures_loaded, meshes := st.meshes,
          gl := st.gl }

/-- An entry of the transparent list built by `Model::Draw`
(struct TransparentEntry): the mesh's registration index and its camera
distance.  The C++ stores `glm::length(wc - cameraPos)`; the embedding
stores the squared length, which is both order- and tie-equivalent
(the square root is strictly monotone on nonnegative reals), keeping
the pipeline rational. -/
structure TransparentEntry where
  idx : Nat
  dist : ℚ
deriving DecidableEq

/-- The world-space centroid `modelMatrix * vec4(centroid, 1)`. -/
def worldCentroid (modelMatrix : Mat4) (m : PMesh) : Vec3 :=
  modelMatrix.appPoint m.centroid

/-- Squared Euclidean distance between two points. -/
def distSq (a b : Vec3) : ℚ := Vec3.dot (a.sub b) (a.sub b)

/-- The transparent-mesh collection loop of `Model::Draw`, from mesh
index `i` on: indices and camera distances of the transparent meshes,
in registration order. -/
def transparentListFrom (modelMatrix : Mat4) (cameraPos : Vec3) :
    Nat → List PMesh → List TransparentEntry
  | _, [] => []
  | i, m :: rest =>
    (if m.transparent then
       [⟨i, distSq (worldCentroid modelMatrix m) cameraPos⟩]
     else [])
    ++ transparentListFrom modelMatrix cameraPos (i + 1) rest

/-- The transparent-mesh collection loop of `Model::Draw`, over the
whole mesh list. -/
def transparentListOf (meshes : List PMesh) (modelMatrix : Mat4)
    (cameraPos : Vec3) : List TransparentEntry :=
  transparentListFrom modelMatrix cameraPos 0 meshes

/-- The contract of the `std::sort` call in `Model::Draw` with comparator
`a.dist > b.dist`: the output is a permutation of the input, sorted
descending by distance.  `std::sort` guarantees nothing more — in
particular nothing about the relative order of equal-distance entries. -/
def stdSortSpec (input output : List TransparentEntry) : Prop :=
  input.Perm output ∧ output.Pairwise (fun a b => a.dist ≥ b.dist)

/-- The opaque first pass of `Model::Draw`: non-transparent meshes are
drawn in registration order. -/
def opaqueDrawOrder (meshes : List PMesh) : List Nat :=
  (meshes.enum.filter (fun p => !p.2.transparent)).map (fun p => p.1)

/-- One GL call recorded by the `Mesh::Draw` embedding.  A
`bindTexture2D` event carries the texture unit that was active when
`glBindTexture(GL_TEXTURE_2D, id)` ran. -/
inductive GLEvent where
  | activeTexture (unit : Nat)
  | bindTexture2D (unit : Nat) (id : Nat)
  | uniform1i (name : String) (v : Int)
  | uniform4f (name : String) (a b c d : ℚ)
  | uniform1f (name : String) (v : ℚ)
  | bindVertexArray (id : Nat)
  | bindElementBuffer (id : Nat)
  | drawElements (count : Nat)
deriving DecidableEq

/-- The fixed semantic texture units of `Mesh::Draw`. -/
def UNIT_DIFFUSE : Nat := 0

def UNIT_NORMAL : Nat := 1

def UNIT_MR : Nat := 2

/-- Declared in `Mesh::Draw` but referenced by no branch of the binding
loop: no texture is ever bound to this unit. -/
def UNIT_HEIGHT : Nat := 3

/-- The loop state of the texture-binding loop of `Mesh::Draw`:
first-match flags per bound kind, the active texture unit, and the
events emitted so far. -/
structure DrawAcc where
  hasDiffuse : Bool := false
  hasNormalMap : Bool := false
  hasMetallicRoughness : Bool := false
  activeUnit : Nat := 0
  events : List GLEvent := []

/-- The GL calls of one taken branch of the binding loop:
`glActiveTexture`, `glBindTexture`, the sampler uniform, and the UV /
rotation uniforms when the shader has them (`sh` models
`glGetUniformLocation(...) != -1`). -/
def bindEventsFor (sh : String → Bool) (unit : Nat)
    (samplerName uvName rotName : String) (T : Texture) : List GLEvent :=
  [.activeTexture unit, .bindTexture2D unit T.id,
   .uniform1i samplerName (unit : Int)]
  ++ (if sh uvName then
        [.uniform4f uvName T.uvOffset.1 T.uvOffset.2 T.uvScale.1 T.uvScale.2]
      else [])
  ++ (if sh rotName then [.uniform1f rotName T.uvRotation] else [])

/-- One iteration of the texture-binding loop of `Mesh::Draw`: the first
diffuse texture goes to unit 0, the first normal map to unit 1, the
first metallic-roughness map to unit 2; everything else (specular,
height, further duplicates) falls into the empty else branch. -/
def drawStep (sh : String → Bool) (acc : DrawAcc) (T : Texture) : DrawAcc :=
  if T.type == "texture_diffuse" && !acc.hasDiffuse then
    { acc with
      hasDiffuse := true, activeUnit := UNIT_DIFFUSE,
      events := acc.events ++ bindEventsFor sh UNIT_DIFFUSE
        "texture_diffuse1" "texture_diffuse1_uv" "texture_diffuse1_rot" T }
  else if T.type == "texture_normal" && !acc.hasNormalMap then
    { acc with
      hasNormalMap := true, activeUnit := UNIT_NORMAL,
      events := acc.events ++ bindEventsFor sh UNIT_NORMAL
        "texture_normal1" "texture_normal1_uv" "texture_normal1_rot" T }
  else if T.type == "texture_metallicRoughness" && !acc.hasMetallicRoughness then
    { acc with
      hasMetallicRoughness := true, activeUnit := UNIT_MR,
      events := acc.events ++ bindEventsFor sh UNIT_MR
        "texture_metallicRoughness1" "texture_metallicRoughness1_uv"
        "texture_metallicRoughness1_rot" T }
  else acc

/-- The GL calls of the no-diffuse fallback: bind `textures[0]` at
unit 0 and set the diffuse sampler and UV/rotation uniforms. -/
def fallbackEvents (sh : String → Bool) (t0 : Texture) : List GLEvent :=
  [GLEvent.activeTexture 0, GLEvent.bindTexture2D 0 t0.id,
   GLEvent.uniform1i "texture_diffuse1" 0]
  ++ (if sh "texture_diffuse1_uv" then
        [GLEvent.uniform4f "texture_diffuse1_uv" t0.uvOffset.1
          t0.uvOffset.2 t0.uvScale.1 t0.uvScale.2]
      else [])
  ++ (if sh "texture_diffuse1_rot" then
        [GLEvent.uniform1f "texture_diffuse1_rot" t0.uvRotation]
      else [])

/-- The no-diffuse fallback of `Mesh::Draw` (lines 185-197): when the
binding loop bound no diffuse texture and the texture list is
non-empty, emit `fallbackEvents` for `textures[0]` and flip
`hasDiffuse` to true. -/
def fallbackAcc (sh : String → Bool) (textures : List Texture)
    (acc : DrawAcc) : DrawAcc :=
  match textures with
  | [] => acc
  | t0 :: _ =>
    if acc.hasDiffuse then acc
    else
      { acc with
        hasDiffuse := true, activeUnit := 0,
        events := acc.events ++ fallbackEvents sh t0 }

/-- The presence-flag and factor uniforms `Mesh::Draw` sets after the
binding loop and the fallback (lines 199-217), each guarded by the
shader having the uniform. -/
def flagFactorEvents (sh : String → Bool) (acc : DrawAcc) (bcf : Vec4)
    (metal rough : ℚ) : List GLEvent :=
  (if sh "hasBaseColor" then
    [.uniform1i "hasBaseColor" (if acc.hasDiffuse then 1 else 0)] else [])
  ++ (if sh "hasNormalMap" then
        [.uniform1i "hasNormalMap" (if acc.hasNormalMap then 1 else 0)] else [])
  ++ (if sh "hasMetallicRoughness" then
        [.uniform1i "hasMetallicRoughness"
          (if acc.hasMetallicRoughness then 1 else 0)] else [])
  ++ (if sh "metallicFactor" then [.uniform1f "metallicFactor" metal] else [])
  ++ (if sh "roughnessFactor" then [.uniform1f "roughnessFactor" rough] else [])
  ++ (if sh "baseColorFactor" then
        [.uniform4f "baseColorFactor" bcf.x bcf.y bcf.z bcf.w] else [])

/-- The GL calls `Mesh::Draw` issues before the draw call: the binding
loop, the no-diffuse fallback, the presence flags and the factor
uniforms. -/
def MeshDrawPre (sh : String → Bool) (textures : List Texture) (bcf : Vec4)
    (metal rough : ℚ) : List GLEvent :=
  let acc := fallbackAcc sh textures (textures.foldl (drawStep sh) {})
  acc.events ++ flagFactorEvents sh acc bcf metal rough

/-- The full GL trace of `Mesh::Draw`: the pre-draw calls, then VAO/EBO
binding, the indexed triangle-list draw call, and the state restore. -/
def MeshDraw (sh : String → Bool) (textures : List Texture) (bcf : Vec4)
    (metal rough : ℚ) (vao ebo nIdx : Nat) : List GLEvent :=
  MeshDrawPre sh textures bcf metal rough
  ++ [.bindVertexArray vao]
  ++ (if ebo ≠ 0 then [.bindElementBuffer ebo] else [])
  ++ [.drawElements nIdx, .bindVertexArray 0, .activeTexture 0]

/-- The per-face direction reconstruction of the procedural sky in
modelLoading.cpp (the switch on `face`), before normalisation.  The
default arm is unreachable: the face loop runs over 0..5 (the C++
leaves `dir` unset there). -/
def skyDir (face : Nat) (u v : ℚ) : Vec3 :=
  match face with
  | 0 => ⟨1, -v, -u⟩
  | 1 => ⟨-1, -v, u⟩
  | 2 => ⟨u, 1, v⟩
  | 3 => ⟨u, -1, -v⟩
  | 4 => ⟨u, -v, 1⟩
  | 5 => ⟨-u, -v, -1⟩
  | _ => ⟨0, 0, 0⟩

/-- The normalised texel coordinate of the sky generator:
`(2 * (x + 0.5) / envSize) - 1`. -/
def texelCoord (x envSize : Nat) : ℚ :=
  2 * ((x : ℚ) + 1/2) / (envSize : ℚ) - 1

/-!  RealGeom: the per-vertex loop of `Model::processMesh` over `ℝ`.
Here `glm::normalize` divides by a Euclidean norm (a square root), so
this part of the embedding lives in the reals; definitions touching
division or `Real.sqrt` are necessarily marked `noncomputable`.  A
default-constructed glm vector is modelled as zero-initialised (the
spec's reading of the skipped fields). -/

/-- Real 3-vector for the per-vertex path. -/
structure RVec3 where
  x : ℝ
  y : ℝ
  z : ℝ

def RVec3.zero : RVec3 := ⟨0, 0, 0⟩

def RVec3.dot (a b : RVec3) : ℝ := a.x * b.x + a.y * b.y + a.z * b.z

def RVec3.smul (c : ℝ) (a : RVec3) : RVec3 := ⟨c * a.x, c * a.y, c * a.z⟩

/-- Real 3×3 matrix (row-indexed as a linear map). -/
structure RMat3 where
  m00 : ℝ
  m01 : ℝ
  m02 : ℝ
  m10 : ℝ
  m11 : ℝ
  m12 : ℝ
  m20 : ℝ
  m21 : ℝ
  m22 : ℝ

def RMat3.id : RMat3 := ⟨1, 0, 0, 0, 1, 0, 0, 0, 1⟩

def RMat3.mulV (m : RMat3) (v : RVec3) : RVec3 :=
  ⟨m.m00 * v.x + m.m01 * v.y + m.m02 * v.z,
   m.m10 * v.x + m.m11 * v.y + m.m12 * v.z,
   m.m20 * v.x + m.m21 * v.y + m.m22 * v.z⟩

def RMat3.transpose (m : RMat3) : RMat3 :=
  ⟨m.m00, m.m10, m.m20, m.m01, m.m11, m.m21, m.m02, m.m12, m.m22⟩

/-- Determinant of the 3×3 matrix. -/
def RMat3.det (m : RMat3) : ℝ :=
  m.m00 * (m.m11 * m.m22 - m.m12 * m.m21)
  - m.m01 * (m.m10 * m.m22 - m.m12 * m.m20)
  + m.m02 * (m.m10 * m.m21 - m.m11 * m.m20)

/-- `glm::inverse` on a 3×3 matrix: the adjugate scaled by the
reciprocal determinant (cofactor expansion, as glm computes it). -/
noncomputable def RMat3.inv (m : RMat3) : RMat3 :=
  let d := m.det
  ⟨(m.m11 * m.m22 - m.m12 * m.m21) / d,
   (m.m02 * m.m21 - m.m01 * m.m22) / d,
   (m.m01 * m.m12 - m.m02 * m.m11) / d,
   (m.m12 * m.m20 - m.m10 * m.m22) / d,
   (m.m00 * m.m22 - m.m02 * m.m20) / d,
   (m.m02 * m.m10 - m.m00 * m.m12) / d,
   (m.m10 * m.m21 - m.m11 * m.m20) / d,
   (m.m01 * m.m20 - m.m00 * m.m21) / d,
   (m.m00 * m.m11 - m.m01 * m.m10) / d⟩

/-- Real 4×4 matrix: a node transform as seen by the vertex loop. -/
structure RMat4 where
  a00 : ℝ
  a01 : ℝ
  a02 : ℝ
  a03 : ℝ
  a10 : ℝ
  a11 : ℝ
  a12 : ℝ
  a13 : ℝ
  a20 : ℝ
  a21 : ℝ
  a22 : ℝ
  a23 : ℝ
  a30 : ℝ
  a31 : ℝ
  a32 : ℝ
  a33 : ℝ

def RMat4.id : RMat4 := ⟨1,0,0,0, 0,1,0,0, 0,0,1,0, 0,0,0,1⟩

/-- `glm::mat3(nodeTransform)`: the upper-left 3×3 linear part. -/
def RMat4.linearPart (m : RMat4) : RMat3 :=
  ⟨m.a00, m.a01, m.a02, m.a10, m.a11, m.a12, m.a20, m.a21, m.a22⟩

/-- `glm::vec3(nodeTransform * glm::vec4(v, 1.0f))`. -/
def RMat4.appPoint (m : RMat4) (p : RVec3) : RVec3 :=
  ⟨m.a00 * p.x + m.a01 * p.y + m.a02 * p.z + m.a03,
   m.a10 * p.x + m.a11 * p.y + m.a12 * p.z + m.a13,
   m.a20 * p.x + m.a21 * p.y + m.a22 * p.z + m.a23⟩

/-- Euclidean norm. -/
noncomputable def rnorm (v : RVec3) : ℝ := Real.sqrt (v.dot v)

/-- `glm::normalize`: scale by the reciprocal norm. -/
noncomputable def rnormalize (v : RVec3) : RVec3 := RVec3.smul (1 / rnorm v) v

/-- The normal matrix of the vertex loop: the identity unless the mesh
has normals, in which case `transpose(inverse(mat3(nodeTransform)))`. -/
noncomputable def normalMatOf (m : RMat4) (hasNormals : Bool) : RMat3 :=
  if hasNormals then m.linearPart.inv.transpose else RMat3.id

/-- The vertex record built by the per-vertex loop of `processMesh`. -/
structure RVertex where
  Position : RVec3
  Normal : RVec3
  TexCoords : ℝ × ℝ
  Tangent : RVec3
  Bitangent : RVec3

/-- One iteration of the vertex loop of `Model::processMesh` (model.h
lines 247-293): bake the node transform into the position; when the
mesh has normals, transform by the inverse-transpose 3×3 and normalise;
when the mesh has texture coordinates, copy UV set 0 and transform and
normalise the tangent and bitangent; otherwise UV is set to (0,0) and
normal/tangent/bitangent keep their zero default. -/
noncomputable def procVertex (nodeTransform : RMat4) (pos : RVec3)
    (normal : Option RVec3) (texuv : Option (ℝ × ℝ))
    (tangent bitangent : RVec3) : RVertex :=
  let nm := normalMatOf nodeTransform normal.isSome
  { Position := nodeTransform.appPoint pos
    Normal :=
      match normal with
      | some n => rnormalize (nm.mulV n)
      | none => RVec3.zero
    TexCoords :=
      match texuv with
      | some uv => uv
      | none => (0, 0)
    Tangent :=
      match texuv with
      | some _ => rnormalize (nm.mulV tangent)
      | none => RVec3.zero
    Bitangent :=
      match texuv with
      | some _ => rnormalize (nm.mulV bitangent)
      | none => RVec3.zero }

/-!  Concrete instances used by the theorems below. -/

/-- A glTF document whose single material references image 0
("wall.png") as its base-color texture. -/
def c1gltf : GltfDoc :=
  { images := [{ uri := some "wall.png" }],
    materials := [{ baseColorTexture := some { index := some 0 } }] }

/-- A scene with two meshes on the root node, both using material 0;
the Assimp material exposes no textures of its own. -/
def c1scene : AiScene :=
  { rootNode := some (.mk Mat4.id [0, 1] []),
    meshes := [{ materialIndex := 0 }, { materialIndex := 0 }],
    materials := [{}] }

/-- The import of `c1scene`/`c1gltf` with an always-succeeding decoder. -/
def c1res : LoadResult :=
  loadModel (some c1scene) (some c1gltf) (fun _ => true) "assets/car.gltf"

/-- A glTF document whose single material has base-color alpha
1999/2000: strictly below 1 but not below the 0.999 threshold the code
actually tests. -/
def c4gltf : GltfDoc :=
  { materials := [{ baseColorFactor := some ⟨1, 1, 1, 1999/2000⟩ }] }

/-- A scene with one texture-less mesh using material 0. -/
def c4scene : AiScene :=
  { rootNode := some (.mk Mat4.id [0] []),
    meshes := [{ materialIndex := 0 }],
    materials := [{}] }

/-- The import of `c4scene`/`c4gltf`. -/
def c4res : LoadResult :=
  loadModel (some c4scene) (some c4gltf) (fun _ => true) "m.gltf"

/-- The single mesh `c4res` produces. -/
def c4mesh : PMesh :=
  { vertices := [], indices := [], textures := [],
    baseColorFactor := ⟨1, 1, 1, 1999/2000⟩, transparent := false,
    metallicFactor := 1, roughnessFactor := 1, centroid := Vec3.zero }

/-- A transparent mesh whose centroid is at distance 5 from the origin
(squared distance 25). -/
def mA : PMesh :=
  { vertices := [], indices := [], textures := [],
    baseColorFactor := ⟨1, 1, 1, 1⟩, transparent := true,
    metallicFactor := 1, roughnessFactor := 1, centroid := ⟨3, 4, 0⟩ }

/-- A second transparent mesh, also at distance 5 (squared 25). -/
def mB : PMesh := { mA with centroid := ⟨5, 0, 0⟩ }

/-- A transparent mesh at distance 2 (squared 4). -/
def mC : PMesh := { mA with centroid := ⟨0, 0, 2⟩ }

/-- A texture tagged with the height kind. -/
def c6tex : Texture := { id := 7, type := "texture_height", path := "h.png" }

/-- C9: in the procedural sky generation, the per-face direction
reconstruction at normalized texel coordinates u = 0, v = 0 yields
(0,1,0) before normalisation for face 2 ("+Y") and (0,0,1) for
face 4 ("+Z"). -/
theorem sky_direction_mapping_c9 :
    skyDir 2 0 0 = ⟨0, 1, 0⟩ ∧ skyDir 4 0 0 = ⟨0, 0, 1⟩ := by
  constructor <;> rfl

/-- C10: a mesh with an empty vertex list gets centroid (0,0,0); the
division by the vertex count is guarded by the non-emptiness check in
`processMesh`, so the centroid computation never divides by zero. -/
theorem centroid_empty_guard_c10 (materials : List AiMaterial) (ctx : Ctx)
    (st : MState) (mesh : AiMesh) (M : Mat4)
    (h : mesh.vertices = []) :
    (processMesh materials ctx st mesh M).1.centroid = Vec3.zero := by
  simp [processMesh, h, Vec3.zero]

/-- Witness for C10 at a concrete empty mesh. -/
theorem centroid_empty_guard_c10_witness :
    (processMesh []
      { directory := "", decodes := fun _ => true, tables := {} }
      {} {} Mat4.id).1.centroid = Vec3.zero :=
  centroid_empty_guard_c10 [] _ {} {} Mat4.id rfl

/-- C2: when the Assimp scene is null, has the incomplete flag set, or
has no root node, `loadModel` reports the import error and the caller's
Model carries no meshes and no loaded textures. -/
theorem import_failure_no_partial_model_c2 (readResult : Option AiScene)
    (gltf : Option GltfDoc) (decodes : String → Bool) (path : String)
    (h : readResult = none ∨
      ∃ s, readResult = some s ∧
        (s.flagsIncomplete = true ∨ s.rootNode = none)) :
    (loadModel readResult gltf decodes path).errorReported = true ∧
    (loadModel readResult gltf decodes path).meshes = [] ∧
    (loadModel readResult gltf decodes path).textures_loaded = [] := by
  rcases h with h | ⟨s, hs, h2⟩
  · subst h; exact ⟨rfl, rfl, rfl⟩
  · subst hs
    rcases h2 with hf | hr
    · simp [loadModel, hf]
    · by_cases hf : s.flagsIncomplete <;> simp [loadModel, hf, hr]

/-- Witness for C2: a null scene. -/
theorem import_failure_no_partial_model_c2_witness :
    (loadModel none none (fun _ => false) "car.gltf").errorReported = true ∧
    (loadModel none none (fun _ => false) "car.gltf").meshes = [] ∧
    (loadModel none none (fun _ => false) "car.gltf").textures_loaded = [] :=
  import_failure_no_partial_model_c2 none none (fun _ => false) "car.gltf"
    (Or.inl rfl)

/-- C7 counterexample: there is no fixed sentinel value returned on
decode failure — `TextureFromFile` returns the freshly generated
texture name, so two failing loads from different GL states return
different handles. -/
theorem no_fixed_sentinel_counterexample_c7 :
    ¬ ∃ sentinel : Nat, ∀ (p d : String) (g : Bool) (st : GLState),
        (TextureFromFile (fun _ => false) p d g st).1 = sentinel := by
  rintro ⟨s, h⟩
  have h1 := h "a.png" "m" false GLState.init
  have h2 := h "a.png" "m" false ⟨2, [], []⟩
  simp [TextureFromFile, GLState.init] at h1 h2
  omega

/-- C7 (amended): on decode failure `TextureFromFile` reports the load
error, uploads no image data (in particular the returned handle — the
freshly generated texture name — has no GPU data associated), and
returns normally, so the caller proceeds without the texture. -/
theorem texture_decode_failure_c7 (decodes : String → Bool)
    (p d : String) (g : Bool) (st : GLState)
    (hfail : decodes (d ++ "/" ++ p) = false)
    (hinv : ∀ j ∈ st.uploaded, j < st.nextTex) :
    (TextureFromFile decodes p d g st).1 = st.nextTex ∧
    (TextureFromFile decodes p d g st).2.uploaded = st.uploaded ∧
    (TextureFromFile decodes p d g st).2.decodeFailures =
      st.decodeFailures ++ [p] ∧
    (TextureFromFile decodes p d g st).1 ∉
      (TextureFromFile decodes p d g st).2.uploaded := by
  refine ⟨?_, ?_, ?_, ?_⟩ <;> simp [TextureFromFile, hfail]
  intro hmem
  exact absurd (hinv _ hmem) (lt_irrefl _)

/-- Witness for C7 (amended) at a concrete failing load. -/
theorem texture_decode_failure_c7_witness :
    (TextureFromFile (fun _ => false) "a.png" "m" false GLState.init).1 = 1 ∧
    (TextureFromFile (fun _ => false) "a.png" "m" false
      GLState.init).2.uploaded = [] ∧
    (TextureFromFile (fun _ => false) "a.png" "m" false
      GLState.init).2.decodeFailures = [] ++ ["a.png"] ∧
    (TextureFromFile (fun _ => false) "a.png" "m" false GLState.init).1 ∉
      (TextureFromFile (fun _ => false) "a.png" "m" false
        GLState.init).2.uploaded :=
  texture_decode_failure_c7 (fun _ => false) "a.png" "m" false GLState.init
    rfl (by simp [GLState.init])

/-- C1: the glTF-JSON texture path of `processMesh` loads textures
without registering them in `textures_loaded` and deduplicates only
within the current mesh, so when two meshes' materials reference the
same image path through the glTF JSON, the import succeeds but the
registry ends up with no entry for the path while the two meshes carry
two different handles for it (the file was decoded twice). -/
theorem texture_registry_gap_c1 :
    c1res.errorReported = false ∧
    c1res.textures_loaded = [] ∧
    c1res.meshes.map (fun m => m.textures.map (fun t => (t.path, t.id))) =
      [[("wall.png", 1)], [("wall.png", 2)]] := by
  decide

/-- C3: the transparent pass sorts with `std::sort`, whose contract
(`stdSortSpec`: a descending-sorted permutation) does not determine the
relative order of equal-distance meshes.  For the three transparent
meshes at distances 5, 5, 2 (squared: 25, 25, 4) both the
registration-order output and the tie-swapped output satisfy the sort's
contract, so the code does not guarantee the claimed stable order. -/
theorem transparent_sort_tie_unspecified_c3 :
    stdSortSpec (transparentListOf [mA, mB, mC] Mat4.id Vec3.zero)
      [⟨0, 25⟩, ⟨1, 25⟩, ⟨2, 4⟩] ∧
    stdSortSpec (transparentListOf [mA, mB, mC] Mat4.id Vec3.zero)
      [⟨1, 25⟩, ⟨0, 25⟩, ⟨2, 4⟩] ∧
    ([⟨1, 25⟩, ⟨0, 25⟩, ⟨2, 4⟩] : List TransparentEntry) ≠
      [⟨0, 25⟩, ⟨1, 25⟩, ⟨2, 4⟩] := by
  have hval : transparentListOf [mA, mB, mC] Mat4.id Vec3.zero =
      [⟨0, 25⟩, ⟨1, 25⟩, ⟨2, 4⟩] := by
    simp [transparentListOf, transparentListFrom, mA, mB, mC, distSq,
      worldCentroid, Mat4.appPoint, Mat4.app, Mat4.id, Vec3.zero, Vec3.sub,
      Vec3.dot]
    norm_num
  refine ⟨⟨?_, ?_⟩, ⟨?_, ?_⟩, ?_⟩
  · rw [hval]
  · norm_num [List.pairwise_cons]
  · rw [hval]; exact List.Perm.swap _ _ _
  · norm_num [List.pairwise_cons]
  · intro h
    simp at h

/-- `lmtStep` never touches the model's mesh list. -/
theorem lmtStep_meshes (ctx : Ctx) (n : String) (acc : List Texture × MState)
    (p : String) : ((lmtStep ctx n acc p).2).meshes = acc.2.meshes := by
  unfold lmtStep
  cases hfind : acc.2.textures_loaded.find? (fun t => t.path == p) <;>
    simp [hfind]

/-- The `loadMaterialTextures` loop never touches the mesh list. -/
theorem lmt_foldl_meshes (ctx : Ctx) (n : String) :
    ∀ (ps : List String) (acc : List Texture × MState),
      ((ps.foldl (lmtStep ctx n) acc).2).meshes = acc.2.meshes := by
  intro ps
  induction ps with
  | nil => intro acc; rfl
  | cons p rest ih =>
    intro acc
    rw [List.foldl_cons, ih, lmtStep_meshes]

/-- `processMesh` returns the mesh it built but appends nothing to the
model's mesh list itself (the caller `processNode` does the append). -/
theorem processMesh_meshes (materials : List AiMaterial) (ctx : Ctx)
    (st : MState) (mesh : AiMesh) (M : Mat4) :
    (processMesh materials ctx st mesh M).2.meshes = st.meshes := by
  simp [processMesh, loadMaterialTextures, lmt_foldl_meshes]

/-- A fold preserves any invariant its step preserves. -/
theorem foldl_preserve {α β : Type} (f : β → α → β) (Q : β → Prop)
    (hf : ∀ b a, Q b → Q (f b a)) :
    ∀ (l : List α) (b : β), Q b → Q (l.foldl f b) := by
  intro l
  induction l with
  | nil => intro b hb; simpa using hb
  | cons a rest ih =>
    intro b hb
    rw [List.foldl_cons]
    exact ih _ (hf b a hb)

/-- The transparency flag `processMesh` computes, characterised against
the mesh record it returns: transparent iff the stored base-color alpha
is below 0.999 or some texture bound to the mesh has a
transparency-keyword path. -/
theorem processMesh_transparent_iff (materials : List AiMaterial) (ctx : Ctx)
    (st : MState) (mesh : AiMesh) (M : Mat4) :
    ((processMesh materials ctx st mesh M).1.transparent = true ↔
      ((processMesh materials ctx st mesh M).1.baseColorFactor.w < 999/1000 ∨
       ∃ t ∈ (processMesh materials ctx st mesh M).1.textures,
         kwTransparent t.path = true)) := by
  by_cases h : mesh.materialIndex < ctx.tables.materialBaseColorFactors.length
  · simp [processMesh, h, List.any_eq_true]
  · simp [processMesh, h, List.any_eq_true]
    norm_num

mutual

/-- Every mesh the node walk appends satisfies any predicate that all
`processMesh` results satisfy. -/
theorem processNode_meshes_pred (scene : AiScene) (ctx : Ctx)
    (P : PMesh → Prop)
    (hP : ∀ st mesh M, P (processMesh scene.materials ctx st mesh M).1)
    (node : AiNode) (parentT : Mat4) (st : MState)
    (hst : ∀ m ∈ st.meshes, P m) :
    ∀ m ∈ (processNode scene ctx node parentT st).meshes, P m := by
  match node with
  | .mk tLocal meshIdxs children =>
    simp only [processNode]
    apply processNodeChildren_meshes_pred scene ctx P hP children
    apply foldl_preserve _ (fun s => ∀ m ∈ s.meshes, P m) _ meshIdxs st hst
    intro s idx hQ m hm
    cases hidx : scene.meshes[idx]? with
    | none => rw [hidx] at hm; exact hQ m hm
    | some mm =>
      rw [hidx] at hm
      simp only [processMesh_meshes] at hm
      rcases List.mem_append.mp hm with hmem | hmem
      · exact hQ m hmem
      · rw [List.mem_singleton] at hmem
        subst hmem
        exact hP s mm _

/-- The child loop of the node walk, same invariant. -/
theorem processNodeChildren_meshes_pred (scene : AiScene) (ctx : Ctx)
    (P : PMesh → Prop)
    (hP : ∀ st mesh M, P (processMesh scene.materials ctx st mesh M).1)
    (l : List AiNode) (t : Mat4) (st : MState)
    (hst : ∀ m ∈ st.meshes, P m) :
    ∀ m ∈ (processNodeChildren scene ctx l t st).meshes, P m := by
  match l with
  | [] => simpa [processNodeChildren] using hst
  | c :: cs =>
    simp only [processNodeChildren]
    exact processNodeChildren_meshes_pred scene ctx P hP cs t _
      (processNode_meshes_pred scene ctx P hP c t st hst)

end

/-- Every mesh of a loaded model satisfies any predicate that all
`processMesh` results satisfy. -/
theorem loadModel_meshes_pred (P : PMesh → Prop)
    (hP : ∀ materials ctx st mesh M,
      P (processMesh materials ctx st mesh M).1)
    (readResult : Option AiScene) (gltf : Option GltfDoc)
    (decodes : String → Bool) (path : String) :
    ∀ m ∈ (loadModel readResult gltf decodes path).meshes, P m := by
  cases readResult with
  | none => simp [loadModel]
  | some scene =>
    by_cases hf : scene.flagsIncomplete
    · simp [loadModel, hf]
    · cases hr : scene.rootNode with
      | none => simp [loadModel, hf, hr]
      | some root =>
        simp only [loadModel, hf, hr, if_neg, Bool.false_eq_true,
          not_false_eq_true]
        apply processNode_meshes_pred
        · intro st mesh M; exact hP _ _ _ _ _
        · intro m hm; simp at hm

/-- Evaluating the `c4` import: one mesh, not transparent, carrying the
alpha-1999/2000 base-color factor and no textures. -/
theorem c4res_meshes_eval : c4res.meshes = [c4mesh] := by
  simp +decide [c4res, c4scene, c4gltf, c4mesh, loadModel, buildTables,
    processGltfMaterial, processNode, processNodeChildren, processMesh,
    loadMaterialTextures, lmtStep, AiMaterial.texturesOf, addJsonTexture,
    dirOf, Mat4.id, Mat4.mul, Mat4.appPoint, Mat4.app, kwTransparent,
    lowerStr, strHasSub, List.getD, GLState.init, Vec3.zero, Vec3.add,
    Vec3.smul]
  norm_num

/-- C4 counterexample: the claim's threshold "alpha factor < 1.0" is
wrong — the code tests `alpha < 0.999f`.  The `c4` import produces a
mesh with alpha 1999/2000 (< 1) and no keyword textures whose
transparency flag is false, refuting the claimed equivalence. -/
theorem transparency_alpha_threshold_counterexample_c4 :
    ¬ ∀ m ∈ c4res.meshes,
        (m.transparent = true ↔
          (m.baseColorFactor.w < 1 ∨
           ∃ t ∈ m.textures, kwTransparent t.path = true)) := by
  intro h
  have hm := h c4mesh (by rw [c4res_meshes_eval]; exact List.mem_singleton_self _)
  simp [c4mesh] at hm
  norm_num at hm

/-- C4 (amended): for every imported mesh, the transparency flag is true
iff the mesh's base-color alpha factor is below 0.999 (the code's
threshold, not 1.0) or some texture path bound to the mesh contains
"glass", "alpha" or "transp" under case-insensitive comparison. -/
theorem transparency_heuristic_c4 (readResult : Option AiScene)
    (gltf : Option GltfDoc) (decodes : String → Bool) (path : String)
    (m : PMesh) (hm : m ∈ (loadModel readResult gltf decodes path).meshes) :
    (m.transparent = true ↔
      (m.baseColorFactor.w < 999/1000 ∨
       ∃ t ∈ m.textures, kwTransparent t.path = true)) :=
  loadModel_meshes_pred
    (fun m => m.transparent = true ↔
      (m.baseColorFactor.w < 999/1000 ∨
       ∃ t ∈ m.textures, kwTransparent t.path = true))
    (fun materials ctx st mesh M =>
      processMesh_transparent_iff materials ctx st mesh M)
    readResult gltf decodes path m hm

/-- Witness for C4 (amended) at the concrete `c4` import. -/
theorem transparency_heuristic_c4_witness :
    (c4mesh.transparent = true ↔
      (c4mesh.baseColorFactor.w < 999/1000 ∨
       ∃ t ∈ c4mesh.textures, kwTransparent t.path = true)) :=
  transparency_heuristic_c4 (some c4scene) (some c4gltf) (fun _ => true)
    "m.gltf" c4mesh
    (by
      have h := c4res_meshes_eval
      unfold c4res at h
      rw [h]
      exact List.mem_singleton_self _)

/-- Membership in a guarded singleton list forces equality. -/
theorem mem_ite_singleton {α : Type} {c : Prop} [Decidable c] {x e : α}
    (h : x ∈ (if c then [e] else [])) : x = e := by
  split at h <;> simp at h
  exact h

/-- A texture-bind event inside one taken loop branch carries that
branch's unit. -/
theorem bindEventsFor_mem_bind (sh : String → Bool) (u : Nat)
    (a b c : String) (T : Texture) (w i : Nat)
    (h : GLEvent.bindTexture2D w i ∈ bindEventsFor sh u a b c T) :
    w = u := by
  unfold bindEventsFor at h
  rcases List.mem_append.mp h with h | h
  · rcases List.mem_append.mp h with h | h
    · simp at h
      exact h.1
    · have := mem_ite_singleton h
      simp at this
  · have := mem_ite_singleton h
    simp at this

/-- Each binding-loop iteration only appends events. -/
theorem drawStep_events_mono (sh : String → Bool) (acc : DrawAcc)
    (T : Texture) :
    ∃ l, (drawStep sh acc T).events = acc.events ++ l := by
  unfold drawStep
  split_ifs <;> first
    | exact ⟨_, rfl⟩
    | exact ⟨[], by simp⟩

/-- The binding loop only appends events. -/
theorem foldl_drawStep_events_mono (sh : String → Bool) :
    ∀ (txs : List Texture) (acc : DrawAcc),
      ∃ l, (txs.foldl (drawStep sh) acc).events = acc.events ++ l := by
  intro txs
  induction txs with
  | nil => intro acc; exact ⟨[], by simp⟩
  | cons T rest ih =>
    intro acc
    rw [List.foldl_cons]
    obtain ⟨l1, h1⟩ := drawStep_events_mono sh acc T
    obtain ⟨l2, h2⟩ := ih (drawStep sh acc T)
    exact ⟨l1 ++ l2, by rw [h2, h1, List.append_assoc]⟩

/-- A non-diffuse texture leaves the diffuse flag untouched. -/
theorem drawStep_hasDiffuse_pres (sh : String → Bool) (acc : DrawAcc)
    (T : Texture) (h : (T.type == "texture_diffuse") = false) :
    (drawStep sh acc T).hasDiffuse = acc.hasDiffuse := by
  unfold drawStep
  split_ifs with h1 h2 h3 <;> try rfl
  rw [h] at h1
  simp at h1

/-- A non-normal texture leaves the normal-map flag untouched. -/
theorem drawStep_hasNormalMap_pres (sh : String → Bool) (acc : DrawAcc)
    (T : Texture) (h : (T.type == "texture_normal") = false) :
    (drawStep sh acc T).hasNormalMap = acc.hasNormalMap := by
  unfold drawStep
  split_ifs with h1 h2 h3 <;> try rfl
  rw [h] at h2
  simp at h2

/-- A non-metallic-roughness texture leaves that flag untouched. -/
theorem drawStep_hasMR_pres (sh : String → Bool) (acc : DrawAcc)
    (T : Texture) (h : (T.type == "texture_metallicRoughness") = false) :
    (drawStep sh acc T).hasMetallicRoughness = acc.hasMetallicRoughness := by
  unfold drawStep
  split_ifs with h1 h2 h3 <;> try rfl
  rw [h] at h3
  simp at h3

/-- Any texture bind the loop body emits goes to unit 0, 1 or 2. -/
theorem drawStep_bind_units (sh : String → Bool) (acc : DrawAcc)
    (T : Texture) (w i : Nat)
    (h : GLEvent.bindTexture2D w i ∈ (drawStep sh acc T).events) :
    GLEvent.bindTexture2D w i ∈ acc.events ∨
      w = UNIT_DIFFUSE ∨ w = UNIT_NORMAL ∨ w = UNIT_MR := by
  unfold drawStep at h
  split_ifs at h
  · rcases List.mem_append.mp h with h | h
    · exact Or.inl h
    · exact Or.inr (Or.inl (bindEventsFor_mem_bind _ _ _ _ _ _ _ _ h))
  · rcases List.mem_append.mp h with h | h
    · exact Or.inl h
    · exact Or.inr (Or.inr (Or.inl (bindEventsFor_mem_bind _ _ _ _ _ _ _ _ h)))
  · rcases List.mem_append.mp h with h | h
    · exact Or.inl h
    · exact Or.inr (Or.inr (Or.inr (bindEventsFor_mem_bind _ _ _ _ _ _ _ _ h)))
  · exact Or.inl h

/-- Any texture bind the whole loop emits goes to unit 0, 1 or 2. -/
theorem foldl_drawStep_bind_units (sh : String → Bool) :
    ∀ (txs : List Texture) (acc : DrawAcc) (w i : Nat),
      GLEvent.bindTexture2D w i ∈ (txs.foldl (drawStep sh) acc).events →
      GLEvent.bindTexture2D w i ∈ acc.events ∨
        w = UNIT_DIFFUSE ∨ w = UNIT_NORMAL ∨ w = UNIT_MR := by
  intro txs
  induction txs with
  | nil => intro acc w i h; exact Or.inl h
  | cons T rest ih =>
    intro acc w i h
    rw [List.foldl_cons] at h
    rcases ih (drawStep sh acc T) w i h with h | h
    · exact drawStep_bind_units sh acc T w i h
    · exact Or.inr h

/-- A texture-bind event inside the fallback events goes to unit 0. -/
theorem fallbackEvents_mem_bind (sh : String → Bool) (t0 : Texture)
    (w i : Nat) (h : GLEvent.bindTexture2D w i ∈ fallbackEvents sh t0) :
    w = 0 := by
  unfold fallbackEvents at h
  rcases List.mem_append.mp h with h | h
  · rcases List.mem_append.mp h with h | h
    · simp at h
      exact h.1
    · have := mem_ite_singleton h
      simp at this
  · have := mem_ite_singleton h
    simp at this

/-- The fallback only appends events. -/
theorem fallbackAcc_events_mono (sh : String → Bool) (txs : List Texture)
    (acc : DrawAcc) :
    ∃ l, (fallbackAcc sh txs acc).events = acc.events ++ l := by
  cases txs with
  | nil => exact ⟨[], by simp [fallbackAcc]⟩
  | cons t0 rest =>
    by_cases hd : acc.hasDiffuse = true
    · exact ⟨[], by simp [fallbackAcc, hd]⟩
    · exact ⟨fallbackEvents sh t0, by simp [fallbackAcc, hd]⟩

/-- Any texture bind the fallback emits goes to unit 0. -/
theorem fallbackAcc_bind_units (sh : String → Bool) (txs : List Texture)
    (acc : DrawAcc) (w i : Nat)
    (h : GLEvent.bindTexture2D w i ∈ (fallbackAcc sh txs acc).events) :
    GLEvent.bindTexture2D w i ∈ acc.events ∨ w = 0 := by
  cases txs with
  | nil => exact Or.inl h
  | cons t0 rest =>
    by_cases hd : acc.hasDiffuse = true
    · rw [show fallbackAcc sh (t0 :: rest) acc = acc from by
        simp [fallbackAcc, hd]] at h
      exact Or.inl h
    · rw [show (fallbackAcc sh (t0 :: rest) acc).events =
          acc.events ++ fallbackEvents sh t0 from by
        simp [fallbackAcc, hd]] at h
      rcases List.mem_append.mp h with h | h
      · exact Or.inl h
      · exact Or.inr (fallbackEvents_mem_bind sh t0 w i h)

/-- The presence-flag and factor uniforms contain no texture binds. -/
theorem flagFactorEvents_no_bind (sh : String → Bool) (acc : DrawAcc)
    (bcf : Vec4) (metal rough : ℚ) (w i : Nat) :
    GLEvent.bindTexture2D w i ∉ flagFactorEvents sh acc bcf metal rough := by
  unfold flagFactorEvents
  intro h
  rcases List.mem_append.mp h with h | h
  · rcases List.mem_append.mp h with h | h
    · rcases List.mem_append.mp h with h | h
      · rcases List.mem_append.mp h with h | h
        · rcases List.mem_append.mp h with h | h
          · have := mem_ite_singleton h; simp at this
          · have := mem_ite_singleton h; simp at this
        · have := mem_ite_singleton h; simp at this
      · have := mem_ite_singleton h; simp at this
    · have := mem_ite_singleton h; simp at this
  · have := mem_ite_singleton h; simp at this

/-- Any texture bind `Mesh::Draw` issues before the draw call goes to
unit 0, 1 or 2. -/
theorem meshDrawPre_bind_units (sh : String → Bool) (txs : List Texture)
    (bcf : Vec4) (metal rough : ℚ) (w i : Nat)
    (h : GLEvent.bindTexture2D w i ∈ MeshDrawPre sh txs bcf metal rough) :
    w = UNIT_DIFFUSE ∨ w = UNIT_NORMAL ∨ w = UNIT_MR := by
  unfold MeshDrawPre at h
  rcases List.mem_append.mp h with h | h
  · rcases fallbackAcc_bind_units _ _ _ _ _ h with h | h
    · rcases foldl_drawStep_bind_units _ _ _ _ _ h with h | h
      · simp at h
      · exact h
    · exact Or.inl h
  · exact absurd h (flagFactorEvents_no_bind _ _ _ _ _ _ _)

/-- Shape of the full Draw trace: the pre-draw calls, then the VAO
bind, the optional EBO bind, the draw call and the state restore. -/
theorem meshDraw_eq (sh : String → Bool) (txs : List Texture) (bcf : Vec4)
    (metal rough : ℚ) (vao ebo n : Nat) :
    MeshDraw sh txs bcf metal rough vao ebo n =
      MeshDrawPre sh txs bcf metal rough ++
        (GLEvent.bindVertexArray vao ::
          ((if ebo ≠ 0 then [GLEvent.bindElementBuffer ebo] else []) ++
           [GLEvent.drawElements n, GLEvent.bindVertexArray 0,
            GLEvent.activeTexture 0])) := by
  simp [MeshDraw]

/-- Loop events survive into the pre-draw trace. -/
theorem mem_meshDrawPre_of_mem_fold (sh : String → Bool)
    (txs : List Texture) (bcf : Vec4) (metal rough : ℚ) (e : GLEvent)
    (h : e ∈ (txs.foldl (drawStep sh) {}).events) :
    e ∈ MeshDrawPre sh txs bcf metal rough := by
  unfold MeshDrawPre
  obtain ⟨l, hl⟩ := fallbackAcc_events_mono sh txs (txs.foldl (drawStep sh) {})
  rw [List.mem_append, hl, List.mem_append]
  exact Or.inl (Or.inl h)

/-- The binding loop binds the first diffuse-tagged texture at
`UNIT_DIFFUSE` when the diffuse flag is still clear. -/
theorem foldl_drawStep_bind_diffuse (sh : String → Bool) :
    ∀ (txs : List Texture) (acc : DrawAcc) (t : Texture),
      acc.hasDiffuse = false →
      txs.find? (fun x => x.type == "texture_diffuse") = some t →
      GLEvent.bindTexture2D UNIT_DIFFUSE t.id ∈
        (txs.foldl (drawStep sh) acc).events := by
  intro txs
  induction txs with
  | nil => intro acc t _ hf; simp at hf
  | cons T rest ih =>
    intro acc t hd hf
    rw [List.foldl_cons]
    by_cases hT : (T.type == "texture_diffuse") = true
    · have hfc : (T :: rest).find? (fun x => x.type == "texture_diffuse") =
          some T := List.find?_cons_of_pos rest hT
      rw [hfc] at hf
      obtain rfl : T = t := by injection hf
      have hstep : (drawStep sh acc T).events = acc.events ++
          bindEventsFor sh UNIT_DIFFUSE "texture_diffuse1"
            "texture_diffuse1_uv" "texture_diffuse1_rot" T := by
        unfold drawStep
        simp [hT, hd]
      obtain ⟨l, hl⟩ := foldl_drawStep_events_mono sh rest (drawStep sh acc T)
      rw [hl, hstep]
      simp [bindEventsFor]
    · have hT' : (T.type == "texture_diffuse") = false := by
        simpa using hT
      have hfc : (T :: rest).find? (fun x => x.type == "texture_diffuse") =
          rest.find? (fun x => x.type == "texture_diffuse") :=
        List.find?_cons_of_neg rest hT
      rw [hfc] at hf
      exact ih (drawStep sh acc T) t
        (by rw [drawStep_hasDiffuse_pres sh acc T hT', hd]) hf

/-- The binding loop binds the first normal-tagged texture at
`UNIT_NORMAL` when the normal-map flag is still clear. -/
theorem foldl_drawStep_bind_normal (sh : String → Bool) :
    ∀ (txs : List Texture) (acc : DrawAcc) (t : Texture),
      acc.hasNormalMap = false →
      txs.find? (fun x => x.type == "texture_normal") = some t →
      GLEvent.bindTexture2D UNIT_NORMAL t.id ∈
        (txs.foldl (drawStep sh) acc).events := by
  intro txs
  induction txs with
  | nil => intro acc t _ hf; simp at hf
  | cons T rest ih =>
    intro acc t hn hf
    rw [List.foldl_cons]
    by_cases hT : (T.type == "texture_normal") = true
    · have hfc : (T :: rest).find? (fun x => x.type == "texture_normal") =
          some T := List.find?_cons_of_pos rest hT
      rw [hfc] at hf
      obtain rfl : T = t := by injection hf
      have hty : T.type = "texture_normal" := by simpa using hT
      have hd : (T.type == "texture_diffuse") = false := by
        rw [hty]; decide
      have hstep : (drawStep sh acc T).events = acc.events ++
          bindEventsFor sh UNIT_NORMAL "texture_normal1"
            "texture_normal1_uv" "texture_normal1_rot" T := by
        unfold drawStep
        simp [hd, hT, hn]
      obtain ⟨l, hl⟩ := foldl_drawStep_events_mono sh rest (drawStep sh acc T)
      rw [hl, hstep]
      simp [bindEventsFor]
    · have hT' : (T.type == "texture_normal") = false := by
        simpa using hT
      have hfc : (T :: rest).find? (fun x => x.type == "texture_normal") =
          rest.find? (fun x => x.type == "texture_normal") :=
        List.find?_cons_of_neg rest hT
      rw [hfc] at hf
      exact ih (drawStep sh acc T) t
        (by rw [drawStep_hasNormalMap_pres sh acc T hT', hn]) hf

/-- The binding loop binds the first metallic-roughness-tagged texture
at `UNIT_MR` when that flag is still clear. -/
theorem foldl_drawStep_bind_mr (sh : String → Bool) :
    ∀ (txs : List Texture) (acc : DrawAcc) (t : Texture),
      acc.hasMetallicRoughness = false →
      txs.find? (fun x => x.type == "texture_metallicRoughness") = some t →
      GLEvent.bindTexture2D UNIT_MR t.id ∈
        (txs.foldl (drawStep sh) acc).events := by
  intro txs
  induction txs with
  | nil => intro acc t _ hf; simp at hf
  | cons T rest ih =>
    intro acc t hm hf
    rw [List.foldl_cons]
    by_cases hT : (T.type == "texture_metallicRoughness") = true
    · have hfc : (T :: rest).find?
          (fun x => x.type == "texture_metallicRoughness") =
          some T := List.find?_cons_of_pos rest hT
      rw [hfc] at hf
      obtain rfl : T = t := by injection hf
      have hty : T.type = "texture_metallicRoughness" := by simpa using hT
      have hd : (T.type == "texture_diffuse") = false := by
        rw [hty]; decide
      have hn : (T.type == "texture_normal") = false := by
        rw [hty]; decide
      have hstep : (drawStep sh acc T).events = acc.events ++
          bindEventsFor sh UNIT_MR "texture_metallicRoughness1"
            "texture_metallicRoughness1_uv" "texture_metallicRoughness1_rot"
            T := by
        unfold drawStep
        simp [hd, hn, hT, hm]
      obtain ⟨l, hl⟩ := foldl_drawStep_events_mono sh rest (drawStep sh acc T)
      rw [hl, hstep]
      simp [bindEventsFor]
    · have hT' : (T.type == "texture_metallicRoughness") = false := by
        simpa using hT
      have hfc : (T :: rest).find?
          (fun x => x.type == "texture_metallicRoughness") =
          rest.find? (fun x => x.type == "texture_metallicRoughness") :=
        List.find?_cons_of_neg rest hT
      rw [hfc] at hf
      exact ih (drawStep sh acc T) t
        (by rw [drawStep_hasMR_pres sh acc T hT', hm]) hf

/-- C6 counterexample: a mesh whose texture list holds one texture of
the height kind never gets it bound to the documented height unit 3 —
`UNIT_HEIGHT` is declared but no branch of the binding loop uses it
(the texture lands at unit 0 through the fallback instead). -/
theorem height_unit_unbound_counterexample_c6 :
    (∃ t ∈ [c6tex], t.type = "texture_height") ∧
    GLEvent.bindTexture2D UNIT_HEIGHT c6tex.id ∉
      MeshDraw (fun _ => true) [c6tex] ⟨1, 1, 1, 1⟩ 1 1 5 6 9 := by
  constructor
  · exact ⟨c6tex, List.mem_singleton_self _, rfl⟩
  · decide

/-- C6 (amended): `Mesh::Draw` binds by fixed semantic units for three
kinds — the first base-color texture to unit 0, the first normal map to
unit 1, the first metallic-roughness map to unit 2 — all before the
draw call; height textures are never bound to unit 3 (no bind to unit 3
ever occurs; `UNIT_HEIGHT` is declared but unused). -/
theorem draw_fixed_units_c6 (sh : String → Bool) (txs : List Texture)
    (bcf : Vec4) (metal rough : ℚ) (vao ebo n : Nat) :
    (∀ t, txs.find? (fun x => x.type == "texture_diffuse") = some t →
        GLEvent.bindTexture2D UNIT_DIFFUSE t.id ∈
          MeshDrawPre sh txs bcf metal rough) ∧
    (∀ t, txs.find? (fun x => x.type == "texture_normal") = some t →
        GLEvent.bindTexture2D UNIT_NORMAL t.id ∈
          MeshDrawPre sh txs bcf metal rough) ∧
    (∀ t, txs.find? (fun x => x.type == "texture_metallicRoughness") = some t →
        GLEvent.bindTexture2D UNIT_MR t.id ∈
          MeshDrawPre sh txs bcf metal rough) ∧
    (∀ i, GLEvent.bindTexture2D UNIT_HEIGHT i ∉
        MeshDraw sh txs bcf metal rough vao ebo n) ∧
    MeshDraw sh txs bcf metal rough vao ebo n =
      MeshDrawPre sh txs bcf metal rough ++
        (GLEvent.bindVertexArray vao ::
          ((if ebo ≠ 0 then [GLEvent.bindElementBuffer ebo] else []) ++
           [GLEvent.drawElements n, GLEvent.bindVertexArray 0,
            GLEvent.activeTexture 0])) := by
  refine ⟨?_, ?_, ?_, ?_, meshDraw_eq sh txs bcf metal rough vao ebo n⟩
  · intro t hf
    exact mem_meshDrawPre_of_mem_fold sh txs bcf metal rough _
      (foldl_drawStep_bind_diffuse sh txs {} t rfl hf)
  · intro t hf
    exact mem_meshDrawPre_of_mem_fold sh txs bcf metal rough _
      (foldl_drawStep_bind_normal sh txs {} t rfl hf)
  · intro t hf
    exact mem_meshDrawPre_of_mem_fold sh txs bcf metal rough _
      (foldl_drawStep_bind_mr sh txs {} t rfl hf)
  · intro i hmem
    rw [meshDraw_eq] at hmem
    rcases List.mem_append.mp hmem with h | h
    · rcases meshDrawPre_bind_units sh txs bcf metal rough _ _ h with
        h | h | h <;> simp [UNIT_HEIGHT, UNIT_DIFFUSE, UNIT_NORMAL,
          UNIT_MR] at h
    · rcases List.mem_cons.mp h with h | h
      · simp at h
      · rcases List.mem_append.mp h with h | h
        · have := mem_ite_singleton h
          simp at this
        · simp at h

/-- Witness for C6 (amended): a single normal map is bound at unit 1. -/
theorem draw_fixed_units_c6_witness :
    GLEvent.bindTexture2D UNIT_NORMAL 5 ∈
      MeshDrawPre (fun _ => true)
        [⟨5, "texture_normal", "n.png", (0, 0), (1, 1), 0⟩]
        ⟨1, 1, 1, 1⟩ 1 1 :=
  (draw_fixed_units_c6 (fun _ => true)
      [⟨5, "texture_normal", "n.png", (0, 0), (1, 1), 0⟩]
      ⟨1, 1, 1, 1⟩ 1 1 9 8 6).2.1
    ⟨5, "texture_normal", "n.png", (0, 0), (1, 1), 0⟩ (by decide)

/-- The binding loop leaves the diffuse flag clear when no texture is
diffuse-tagged. -/
theorem foldl_drawStep_no_diffuse (sh : String → Bool) :
    ∀ (txs : List Texture) (acc : DrawAcc),
      (∀ t ∈ txs, (t.type == "texture_diffuse") = false) →
      (txs.foldl (drawStep sh) acc).hasDiffuse = acc.hasDiffuse := by
  intro txs
  induction txs with
  | nil => intro acc _; rfl
  | cons T rest ih =>
    intro acc hnd
    rw [List.foldl_cons,
      ih (drawStep sh acc T) (fun t ht => hnd t (List.mem_cons_of_mem T ht)),
      drawStep_hasDiffuse_pres sh acc T (hnd T (List.mem_cons_self T rest))]

/-- C8: a mesh with a non-empty texture list in which no texture is
diffuse-tagged still gets its first texture bound at the base-color
unit 0 through the fallback, and the `hasBaseColor` presence flag is
passed to the shader as true. -/
theorem fallback_basecolor_c8 (sh : String → Bool) (txs : List Texture)
    (bcf : Vec4) (metal rough : ℚ) (t0 : Texture) (rest : List Texture)
    (htx : txs = t0 :: rest)
    (hnd : ∀ t ∈ txs, (t.type == "texture_diffuse") = false)
    (hsh : sh "hasBaseColor" = true) :
    GLEvent.bindTexture2D 0 t0.id ∈ MeshDrawPre sh txs bcf metal rough ∧
    GLEvent.uniform1i "hasBaseColor" 1 ∈
      MeshDrawPre sh txs bcf metal rough := by
  subst htx
  have hfd : ((t0 :: rest).foldl (drawStep sh) {}).hasDiffuse = false :=
    foldl_drawStep_no_diffuse sh (t0 :: rest) {} hnd
  unfold MeshDrawPre
  have hfb : fallbackAcc sh (t0 :: rest)
      ((t0 :: rest).foldl (drawStep sh) {}) =
      { (t0 :: rest).foldl (drawStep sh) {} with
        hasDiffuse := true, activeUnit := 0,
        events := ((t0 :: rest).foldl (drawStep sh) {}).events
          ++ fallbackEvents sh t0 } := by
    simp only [fallbackAcc]
    rw [hfd]
    simp
  rw [hfb]
  constructor
  · rw [List.mem_append]
    refine Or.inl ?_
    rw [List.mem_append]
    refine Or.inr ?_
    simp [fallbackEvents]
  · rw [List.mem_append]
    refine Or.inr ?_
    simp [flagFactorEvents, hsh]

/-- Witness for C8: one height-kind texture, no diffuse tag. -/
theorem fallback_basecolor_c8_witness :
    GLEvent.bindTexture2D 0 c6tex.id ∈
      MeshDrawPre (fun _ => true) [c6tex] ⟨1, 1, 1, 1⟩ 1 1 ∧
    GLEvent.uniform1i "hasBaseColor" 1 ∈
      MeshDrawPre (fun _ => true) [c6tex] ⟨1, 1, 1, 1⟩ 1 1 :=
  fallback_basecolor_c8 (fun _ => true) [c6tex] ⟨1, 1, 1, 1⟩ 1 1 c6tex []
    rfl (by decide) rfl

/-- A nonzero vector has positive squared norm. -/
theorem rvec_dot_pos (v : RVec3) (h : v ≠ RVec3.zero) :
    0 < RVec3.dot v v := by
  rcases v with ⟨x, y, z⟩
  have hne : x ≠ 0 ∨ y ≠ 0 ∨ z ≠ 0 := by
    by_contra hc
    push_neg at hc
    exact h (by simp [RVec3.zero, hc.1, hc.2.1, hc.2.2])
  simp only [RVec3.dot]
  rcases hne with hx | hy | hz
  · nlinarith [mul_self_nonneg y, mul_self_nonneg z, mul_self_pos.mpr hx]
  · nlinarith [mul_self_nonneg x, mul_self_nonneg z, mul_self_pos.mpr hy]
  · nlinarith [mul_self_nonneg x, mul_self_nonneg y, mul_self_pos.mpr hz]

/-- `glm::normalize` of a nonzero vector has unit Euclidean norm. -/
theorem rnorm_normalize (v : RVec3) (h : v ≠ RVec3.zero) :
    rnorm (rnormalize v) = 1 := by
  have hp : 0 < RVec3.dot v v := rvec_dot_pos v h
  have hs : 0 < Real.sqrt (RVec3.dot v v) := Real.sqrt_pos.mpr hp
  rcases v with ⟨x, y, z⟩
  simp only [rnorm, rnormalize, RVec3.smul, RVec3.dot] at *
  have hq : 1 / Real.sqrt (x * x + y * y + z * z) * x *
        (1 / Real.sqrt (x * x + y * y + z * z) * x) +
      1 / Real.sqrt (x * x + y * y + z * z) * y *
        (1 / Real.sqrt (x * x + y * y + z * z) * y) +
      1 / Real.sqrt (x * x + y * y + z * z) * z *
        (1 / Real.sqrt (x * x + y * y + z * z) * z) =
      (1 / Real.sqrt (x * x + y * y + z * z)) ^ 2 *
        (x * x + y * y + z * z) := by ring
  rw [hq, Real.sqrt_mul (sq_nonneg _), Real.sqrt_sq (by positivity)]
  field_simp

/-- C5: per-vertex import attributes — a vertex of a mesh without
texture coordinates gets UV (0,0) and zero tangent/bitangent; a mesh
without normals gets a zero normal; when the attributes are present
(and nonzero after the normal-matrix transform), the stored
normal/tangent/bitangent are unit-length after the baked transform. -/
theorem vertex_attr_c5 (M : RMat4) (pos : RVec3) (normal : Option RVec3)
    (texuv : Option (ℝ × ℝ)) (tangent bitangent : RVec3) :
    (texuv = none →
      (procVertex M pos normal texuv tangent bitangent).TexCoords = (0, 0) ∧
      (procVertex M pos normal texuv tangent bitangent).Tangent =
        RVec3.zero ∧
      (procVertex M pos normal texuv tangent bitangent).Bitangent =
        RVec3.zero) ∧
    (normal = none →
      (procVertex M pos normal texuv tangent bitangent).Normal =
        RVec3.zero) ∧
    (∀ nv, normal = some nv →
      (normalMatOf M true).mulV nv ≠ RVec3.zero →
      rnorm (procVertex M pos normal texuv tangent bitangent).Normal = 1) ∧
    (∀ uv, texuv = some uv →
      (normalMatOf M normal.isSome).mulV tangent ≠ RVec3.zero →
      rnorm (procVertex M pos normal texuv tangent bitangent).Tangent = 1) ∧
    (∀ uv, texuv = some uv →
      (normalMatOf M normal.isSome).mulV bitangent ≠ RVec3.zero →
      rnorm (procVertex M pos normal texuv tangent bitangent).Bitangent
        = 1) := by
  refine ⟨?_, ?_, ?_, ?_, ?_⟩
  · intro h
    subst h
    simp [procVertex]
  · intro h
    subst h
    simp [procVertex]
  · intro nv h hnz
    subst h
    simp only [procVertex]
    exact rnorm_normalize _ hnz
  · intro uv h hnz
    subst h
    simp only [procVertex]
    exact rnorm_normalize _ hnz
  · intro uv h hnz
    subst h
    simp only [procVertex]
    exact rnorm_normalize _ hnz

/-- Witness for C5: identity transform, normal (1,0,0), no texture
coordinates. -/
theorem vertex_attr_c5_witness :
    rnorm ((procVertex RMat4.id RVec3.zero (some ⟨1, 0, 0⟩) none
      RVec3.zero RVec3.zero).Normal) = 1 ∧
    (procVertex RMat4.id RVec3.zero (some ⟨1, 0, 0⟩) none
      RVec3.zero RVec3.zero).TexCoords = (0, 0) := by
  constructor
  · apply (vertex_attr_c5 RMat4.id RVec3.zero (some ⟨1, 0, 0⟩) none
      RVec3.zero RVec3.zero).2.2.1 ⟨1, 0, 0⟩ rfl
    intro hz
    have hx := congrArg RVec3.x hz
    norm_num [normalMatOf, RMat4.id, RMat4.linearPart, RMat3.inv,
      RMat3.det, RMat3.transpose, RMat3.mulV, RVec3.zero] at hx
  · exact ((vertex_attr_c5 RMat4.id RVec3.zero (some ⟨1, 0, 0⟩) none
      RVec3.zero RVec3.zero).1 rfl).1
